import Mathlib

/-!
Shallow embedding of the tagged allocator in src/tagged_alloc.h (class TaggedAlloc)
and verification of the specification's claims about it.

Modelling conventions:
- Pointers are natural numbers; 0 plays the role of nullptr.
- size_t and uint32_t values are natural numbers; where the code can overflow or
  underflow (the 32-bit AllocationCount increment/decrement, the running sum in
  GetTotalSize) the wrap-around is made explicit with a modulus of 2^32
  (the target is a 32-bit platform, so size_t is 4 bytes wide).
- Every assert in the source that can actually fail is modelled by returning
  none (an assertion failure halts the process); operations that can hit such an
  assert return Option. The mutex asserts (xSemaphoreTake) are elided: the
  embedding is of the single-threaded functional behaviour, in which every
  recursive-mutex acquisition succeeds.
- The backing buffer AllocationTable is a list of descriptors, one element per
  slot. In every state the theorems below consider, the list length equals the
  AllocationTableSize field, mirroring a heap buffer of exactly that many
  entries. Loops of the form [for n = 0; n < AllocationTableSize; n++] over the
  buffer are therefore modelled by structural recursion over the list; the two
  places where the scan bound in the source is NOT the entry count (the shifted
  scan in IsAllocationTableFragmented and the byte-count loop bound in
  PrintStats) keep their bounds explicit.
-/

set_option maxRecDepth 8000

namespace TaggedAllocModel

/-- Configuration constant TAGGED_ALLOC_MIN_TABLE_SIZE (line 63): minimum size of
the allocation table, in entries. -/
def TAGGED_ALLOC_MIN_TABLE_SIZE : Nat := 32

/-- Configuration constant TAGGED_ALLOC_INITIAL_TABLE_SIZE (line 68): initial
allocation table size, in entries. -/
def TAGGED_ALLOC_INITIAL_TABLE_SIZE : Nat := 64

/-- Configuration constant TAGGED_ALLOC_TABLE_SHRINK_STEP (line 74): number of
excess empty entries required before the table is shrunk. -/
def TAGGED_ALLOC_TABLE_SHRINK_STEP : Nat := 64

/-- Configuration constant TAGGED_ALLOC_TABLE_EXPAND_STEP (line 79): number of
entries added to the allocation table once it is full. -/
def TAGGED_ALLOC_TABLE_EXPAND_STEP : Nat := 32

/-- Modulus of the 32-bit size_t arithmetic on the target platform. -/
def SIZE_T_MOD : Nat := 4294967296

/-- Byte size of struct TaggedAllocationDescriptor on the 32-bit target:
4 (void pointer) + 4 (size_t) + 4 (char Tag) + 4 (uint32_t Time). -/
def sizeofTaggedAllocationDescriptor : Nat := 16

/-- Embedding of struct TaggedAllocationDescriptor (lines 108-116). Object is the
pointer value (0 for nullptr), Size the size_t byte count, Tag the four tag
bytes, Time the uint32_t millis() timestamp taken at creation. -/
structure TaggedAllocationDescriptor where
  Object : Nat
  Size : Nat
  Tag : List Nat
  Time : Nat
deriving DecidableEq

/-- Embedding of the TAGGED_ALLOC_IS_VALID macro (line 97): a descriptor is valid
iff its Object pointer is non-null. -/
def TAGGED_ALLOC_IS_VALID (t : TaggedAllocationDescriptor) : Bool :=
  t.Object != 0

/-- The zero-initialised descriptor written by the brace-initialiser in the
source when a slot is cleared. Its Object field is 0, so it is the empty
sentinel. -/
def emptyDescriptor : TaggedAllocationDescriptor :=
  { Object := 0, Size := 0, Tag := [0, 0, 0, 0], Time := 0 }

/-- The mutable static state of class TaggedAlloc (lines 119-127): the live
allocation counter, the table size variable (in entries, per its declaration
comment on line 122), and the backing buffer contents. -/
structure AllocState where
  AllocationCount : Nat
  AllocationTableSize : Nat
  AllocationTable : List TaggedAllocationDescriptor
deriving DecidableEq

/-- The state right after Init() (lines 152-172): AllocationCount 0 and
AllocationTableSize at its static initial value (lines 196-197); the backing
buffer is obtained from malloc WITHOUT being cleared, so its contents are
whatever the heap held, modelled by the parameter. -/
def initState (t0 : List TaggedAllocationDescriptor) : AllocState :=
  { AllocationCount := 0,
    AllocationTableSize := TAGGED_ALLOC_INITIAL_TABLE_SIZE,
    AllocationTable := t0 }

/-- GetFirstEmptySlot (lines 317-334): linear scan from slot 0 for the first
invalid slot, returning its index if one exists. The scan bound
AllocationTableSize equals the list length. -/
def GetFirstEmptySlot : List TaggedAllocationDescriptor → Option Nat
  | [] => none
  | d :: rest =>
    if TAGGED_ALLOC_IS_VALID d then
      Option.map (fun n => n + 1) (GetFirstEmptySlot rest)
    else
      some 0

/-- Loop body of IsAllocationTableFragmented (lines 374-398). The source walks a
raw pointer [entry] from the BASE of the table while the loop counter [index]
starts at [start]: the descriptor examined in the iteration with counter value
idx is table[idx - start], i.e. table[k] here, while all reported indices are the
counter values. The countdown argument is the number of remaining iterations
(AllocationTableSize - idx). firstEmpty holds the value written through the
firstEmptyIndex out-pointer once the first invalid entry is seen (the
reachedInvalidEntry flag of the source is firstEmpty.isSome). Returns
some (firstEmptyIndex, firstValidIndex) when the scan reports fragmentation,
none otherwise. -/
def isFragGo (table : List TaggedAllocationDescriptor) :
    Nat → Nat → Nat → Option Nat → Option (Nat × Nat)
  | 0, _, _, _ => none
  | Nat.succ n, k, idx, firstEmpty =>
    let entry := table.getD k emptyDescriptor
    if TAGGED_ALLOC_IS_VALID entry then
      match firstEmpty with
      | some e => some (e, idx)
      | none => isFragGo table n (k + 1) (idx + 1) none
    else
      match firstEmpty with
      | some _ => isFragGo table n (k + 1) (idx + 1) firstEmpty
      | none => isFragGo table n (k + 1) (idx + 1) (some idx)

/-- IsAllocationTableFragmented (lines 365-402), with the entry-pointer shift
described at isFragGo. sizeN is the AllocationTableSize scan bound. The assert
on line 372 (start below AllocationTableSize) always passes at this function's
call sites inside DefragAllocationTable, because the start argument there is
either 0 on a non-empty table or an index previously reported by this very scan,
which is below the bound; it is therefore not modelled as a failure case. -/
def IsAllocationTableFragmented (sizeN start : Nat)
    (table : List TaggedAllocationDescriptor) : Option (Nat × Nat) :=
  isFragGo table (sizeN - start) 0 start none

/-- Loop of DefragAllocationTable (lines 410-419): while the fragmentation scan
reports a pair of indices, move the reported first valid allocation into the
reported first empty slot, clear the vacated slot, and rescan starting from the
slot just filled. The fuel argument only bounds the number of iterations of the
while loop so that the function is total; none signals fuel exhaustion, which is
never hit at the concrete inputs evaluated below. -/
def defragGo (sizeN : Nat) :
    Nat → Nat → List TaggedAllocationDescriptor →
    Option (List TaggedAllocationDescriptor)
  | 0, _, _ => none
  | Nat.succ fuel, firstEmptyIndex, table =>
    match IsAllocationTableFragmented sizeN firstEmptyIndex table with
    | none => some table
    | some (e, v) =>
      defragGo sizeN fuel e
        ((table.set e (table.getD v emptyDescriptor)).set v emptyDescriptor)

/-- DefragAllocationTable (lines 406-422): repeatedly compacts while the
fragmentation scan reports fragmentation, starting with both out-variables 0.
The fuel bound exceeds the worst-case iteration count of the loop. -/
def DefragAllocationTable (sizeN : Nat)
    (table : List TaggedAllocationDescriptor) :
    Option (List TaggedAllocationDescriptor) :=
  defragGo sizeN (sizeN * sizeN + sizeN + 1) 0 table

/-- Effect of realloc on the buffer contents, in entries: the first
min(old, new) entries are preserved; entries beyond the old length are
uninitialised in the source, modelled here as zeroed. In every theorem below the
growing case is unreachable, because ResizeAllocationTable's inverted
minimum-size assert rejects every request of at least
TAGGED_ALLOC_MIN_TABLE_SIZE entries while any growth request is larger than
that, so the choice of fill value is never observable. -/
def reallocEntries (table : List TaggedAllocationDescriptor) (n : Nat) :
    List TaggedAllocationDescriptor :=
  table.take n ++ List.replicate (n - table.length) emptyDescriptor

/-- ResizeAllocationTable (lines 426-446). The assert on line 428 is
[assert(newEntryCount < TAGGED_ALLOC_MIN_TABLE_SIZE)], written exactly so in the
source: it PASSES only when the requested entry count is strictly below the
configured minimum and the process dies otherwise (none). When the request
differs from the current size, a shrink first defragments, then the buffer is
reallocated to newEntryCount entries; line 442 then assigns the BYTE size
(newEntryCount times the descriptor size) to the AllocationTableSize variable,
whose unit is entries. Reallocation failure (line 441) is not modelled: the
model's realloc always succeeds. -/
def ResizeAllocationTable (newEntryCount : Nat) (s : AllocState) :
    Option AllocState :=
  if newEntryCount < TAGGED_ALLOC_MIN_TABLE_SIZE then
    if newEntryCount ≠ s.AllocationTableSize then
      let defragged :=
        if newEntryCount < s.AllocationTableSize then
          DefragAllocationTable s.AllocationTableSize s.AllocationTable
        else
          some s.AllocationTable
      defragged.bind (fun t =>
        some { AllocationCount := s.AllocationCount,
               AllocationTableSize :=
                 newEntryCount * sizeofTaggedAllocationDescriptor,
               AllocationTable := reallocEntries t newEntryCount })
    else
      some s
  else
    none

/-- InsertAllocation (lines 450-469): if no empty slot exists, resize up by the
expansion step; then scan again (the source performs the second scan
unconditionally); if still no empty slot, assert(false) (none); otherwise write
the descriptor into the slot and increment the 32-bit live counter. -/
def InsertAllocation (ta : TaggedAllocationDescriptor) (s : AllocState) :
    Option AllocState :=
  let afterGrow : Option AllocState :=
    match GetFirstEmptySlot s.AllocationTable with
    | some _ => some s
    | none =>
      ResizeAllocationTable
        (s.AllocationTableSize + TAGGED_ALLOC_TABLE_EXPAND_STEP) s
  afterGrow.bind (fun s1 =>
    match GetFirstEmptySlot s1.AllocationTable with
    | none => none
    | some insertIndex =>
      some { AllocationCount := (s1.AllocationCount + 1) % SIZE_T_MOD,
             AllocationTableSize := s1.AllocationTableSize,
             AllocationTable := s1.AllocationTable.set insertIndex ta })

/-- Index of the slot cleared by the removal scan of RemoveAllocation
(lines 478-489): the first slot that is valid and whose Object equals the freed
pointer. -/
def firstMatchIdx (p : Nat) : List TaggedAllocationDescriptor → Option Nat
  | [] => none
  | d :: rest =>
    if TAGGED_ALLOC_IS_VALID d && d.Object == p then
      some 0
    else
      Option.map (fun n => n + 1) (firstMatchIdx p rest)

/-- The removal scan of RemoveAllocation (lines 478-489): walk the table from
slot 0; at the first slot that is valid and holds the freed pointer, write the
zero-initialised descriptor and stop (break). Slots before the match, invalid
slots, and everything after the break are left as they were. -/
def clearFirstMatch (p : Nat) :
    List TaggedAllocationDescriptor → List TaggedAllocationDescriptor
  | [] => []
  | d :: rest =>
    if TAGGED_ALLOC_IS_VALID d && d.Object == p then
      emptyDescriptor :: rest
    else
      d :: clearFirstMatch p rest

/-- RemoveAllocation (lines 474-501): run the removal scan, decrement the 32-bit
live counter regardless of whether a match was found, then, if the decremented
count exceeds TAGGED_ALLOC_MIN_TABLE_SIZE and leaves more than a shrink-step of
free slots, request a shrink by one shrink step. -/
def RemoveAllocation (objectPointer : Nat) (s : AllocState) :
    Option AllocState :=
  let newCount := (s.AllocationCount + (SIZE_T_MOD - 1)) % SIZE_T_MOD
  let s1 : AllocState :=
    { AllocationCount := newCount,
      AllocationTableSize := s.AllocationTableSize,
      AllocationTable := clearFirstMatch objectPointer s.AllocationTable }
  if TAGGED_ALLOC_MIN_TABLE_SIZE < newCount ∧
      newCount + TAGGED_ALLOC_TABLE_SHRINK_STEP < s.AllocationTableSize then
    ResizeAllocationTable
      (s.AllocationTableSize - TAGGED_ALLOC_TABLE_SHRINK_STEP) s1
  else
    some s1

/-- GetAllocationCount (lines 233-242): returns the live counter, read under the
lock. -/
def GetAllocationCount (s : AllocState) : Nat :=
  s.AllocationCount

/-- GetTotalSize (lines 246-262): full scan of the table summing the Size field
of every valid slot into a 32-bit size_t accumulator. -/
def GetTotalSize (s : AllocState) : Nat :=
  s.AllocationTable.foldl
    (fun totalSize d =>
      if TAGGED_ALLOC_IS_VALID d then (totalSize + d.Size) % SIZE_T_MOD
      else totalSize) 0

/-- The list of valid (live) records of a table, in slot order. -/
def validRecords (t : List TaggedAllocationDescriptor) :
    List TaggedAllocationDescriptor :=
  t.filter (fun d => TAGGED_ALLOC_IS_VALID d)

/-- Number of valid records in a table. -/
def numValid (t : List TaggedAllocationDescriptor) : Nat :=
  (validRecords t).length

/-- Sum of the Size fields of the valid records of a table, as an unbounded
natural number. -/
def sumValidSizes (t : List TaggedAllocationDescriptor) : Nat :=
  ((validRecords t).map TaggedAllocationDescriptor.Size).sum

/-- One per-record report line emitted by PrintStats (lines 294-305): the four
raw tag bytes, the decimal size, the Time field (which the source renders
divided by 1000.0), and the pointer value (which the source renders in hex). -/
structure StatsLine where
  tag : List Nat
  size : Nat
  time : Nat
  addr : Nat
deriving DecidableEq

/-- Per-record loop of PrintStats (lines 266-310). The local variable tableSize
(line 273) is the BYTE size of the table, AllocationTableSize times the
descriptor size; the snapshot copy receives exactly that many bytes, i.e. all
AllocationTableSize entries; but the print loop (line 289) then runs the ENTRY
index up to tableSize, so it reads descriptors past the end of the snapshot
buffer. The heap contents located after the snapshot copy, which those
out-of-bounds reads return, are modelled by the heapBeyondCopy parameter. A line
is emitted for every descriptor read whose validity check passes. The summary
lines printed before the loop are not modelled. -/
def PrintStats (s : AllocState)
    (heapBeyondCopy : List TaggedAllocationDescriptor) : List StatsLine :=
  let tableSize := s.AllocationTableSize * sizeofTaggedAllocationDescriptor
  let allocationTableCopy := s.AllocationTable ++ heapBeyondCopy
  (allocationTableCopy.take tableSize).filterMap (fun alloc =>
    if TAGGED_ALLOC_IS_VALID alloc then
      some { tag := alloc.Tag, size := alloc.Size,
             time := alloc.Time, addr := alloc.Object }
    else
      none)

/-- One public operation of the facade, as seen by the allocation table: an
Allocate call inserts the descriptor it built (AllocateInternal, lines 505-525),
a Free call removes by pointer (lines 223-229). -/
inductive AllocOp where
  | alloc : TaggedAllocationDescriptor → AllocOp
  | free : Nat → AllocOp
deriving DecidableEq

/-- Effect of one public operation on the table state. -/
def applyOp : AllocOp → AllocState → Option AllocState
  | AllocOp.alloc d, s => InsertAllocation d s
  | AllocOp.free a, s => RemoveAllocation a s

/-- Run a sequence of public operations; none as soon as one of them hits a
fatal assert. -/
def runOps : List AllocOp → AllocState → Option AllocState
  | [], s => some s
  | op :: rest, s => (applyOp op s).bind (runOps rest)

/-- Ghost accounting of the Allocate calls not yet matched by a Free on the same
address: an alloc adds its address to the list, a free erases one occurrence of
the freed address. -/
def liveAfter : List AllocOp → List Nat → List Nat
  | [], live => live
  | AllocOp.alloc d :: rest, live => liveAfter rest (d.Object :: live)
  | AllocOp.free a :: rest, live => liveAfter rest (live.erase a)

/-- The sequences of calls the count-invariant claim quantifies over: every
alloc carries a non-null address that is fresh (the underlying malloc never
returns an address equal to that of a currently live allocation), and every
free targets an address previously returned and not yet freed. -/
def legalSeq : List AllocOp → List Nat → Bool
  | [], _ => true
  | AllocOp.alloc d :: rest, live =>
    (d.Object != 0) && !(decide (d.Object ∈ live)) &&
      legalSeq rest (d.Object :: live)
  | AllocOp.free a :: rest, live =>
    decide (a ∈ live) && legalSeq rest (live.erase a)

/-- Concrete input for the shrink claim: the record whose address is freed. -/
def c1_target : TaggedAllocationDescriptor := ⟨5, 8, [65, 65, 65, 65], 0⟩

/-- Concrete input for the shrink claim: one of the twenty other live records. -/
def c1_other : TaggedAllocationDescriptor := ⟨9, 8, [66, 66, 66, 66], 0⟩

/-- Concrete input for the shrink claim: a 96-entry table holding 21 live
records, about to drop to 20 (below the 96 - 64 = 32 shrink threshold of the
specification's scenario B). -/
def c1_state : AllocState :=
  ⟨21, 96, c1_target :: List.replicate 20 c1_other ++ List.replicate 75 emptyDescriptor⟩

/-- Concrete input for the growth claim: a completely full 64-entry table. -/
def c2_full : AllocState :=
  ⟨64, 64, List.replicate 64 ⟨3, 4, [68, 68, 68, 68], 0⟩⟩

/-- Concrete input for the growth claim: the descriptor of the pending 65th
insertion. -/
def c2_desc : TaggedAllocationDescriptor := ⟨77, 4, [67, 67, 67, 67], 0⟩

/-- Concrete input for the resize-assert claim: an empty table at the initial
size. -/
def c3_state : AllocState := ⟨0, 64, List.replicate 64 emptyDescriptor⟩

/-- Concrete inputs for the defragmentation claim: three live records. -/
def c4_r1 : TaggedAllocationDescriptor := ⟨11, 4, [0, 0, 0, 0], 0⟩

/-- Second live record of the defragmentation counterexample table. -/
def c4_r4 : TaggedAllocationDescriptor := ⟨44, 4, [0, 0, 0, 0], 0⟩

/-- Third live record of the defragmentation counterexample table. -/
def c4_r5 : TaggedAllocationDescriptor := ⟨55, 4, [0, 0, 0, 0], 0⟩

/-- Concrete input for the defragmentation claim: valid, empty, empty, valid,
valid. -/
def c4_table : List TaggedAllocationDescriptor :=
  [c4_r1, emptyDescriptor, emptyDescriptor, c4_r4, c4_r5]

/-- Concrete input for the resize-idempotence claim: a table at the initial
size 64 holding two live records. -/
def c7_state : AllocState :=
  ⟨2, 64, ⟨21, 8, [1, 1, 1, 1], 0⟩ :: ⟨22, 8, [2, 2, 2, 2], 0⟩ ::
    List.replicate 62 emptyDescriptor⟩

/-- Auxiliary state for the resize-idempotence claim: a (not normally reachable)
table whose size is below the configured minimum, on which the requested size
does pass the inverted assert so the no-op branch is observable. -/
def c7_small : AllocState := ⟨0, 16, List.replicate 16 emptyDescriptor⟩

/-- Concrete input for the dump claim: a one-entry table with no live record. -/
def c9_state : AllocState := ⟨0, 1, [emptyDescriptor]⟩

/-- Concrete input for the dump claim: heap residue located after the snapshot
copy, holding one descriptor-shaped region whose first word is non-zero. -/
def c9_heap : List TaggedAllocationDescriptor :=
  ⟨3735928559, 123, [0, 0, 0, 0], 0⟩ :: List.replicate 14 emptyDescriptor

/-- Witness state for the untracked-free claim: one live record at address 9,
live count in sync with the table. -/
def c6_state : AllocState :=
  ⟨1, 64, ⟨9, 16, [77, 77, 77, 77], 0⟩ :: List.replicate 63 emptyDescriptor⟩

/-- Witness record for the total-size claim, 16 bytes. -/
def c8_recA : TaggedAllocationDescriptor := ⟨100, 16, [84, 65, 71, 65], 0⟩

/-- Witness record for the total-size claim, 32 bytes. -/
def c8_recB : TaggedAllocationDescriptor := ⟨200, 32, [84, 65, 71, 66], 0⟩

/-- Witness state for the total-size claim: the two records in scattered
slots. -/
def c8_state : AllocState :=
  ⟨2, 64, emptyDescriptor :: c8_recA :: emptyDescriptor :: c8_recB ::
    List.replicate 60 emptyDescriptor⟩

/-- Witness state for the total-size claim: the same two records in different
slots and in the opposite order. -/
def c8_state2 : AllocState :=
  ⟨2, 64, c8_recB :: List.replicate 62 emptyDescriptor ++ [c8_recA]⟩

/-- Witness records for the removal-scan claim: two live records sharing
address 5 and one at address 7. -/
def c10_dupA : TaggedAllocationDescriptor := ⟨5, 8, [1, 1, 1, 1], 10⟩

/-- Second record with the duplicated address 5. -/
def c10_dupB : TaggedAllocationDescriptor := ⟨5, 8, [2, 2, 2, 2], 20⟩

/-- Record with the distinct address 7. -/
def c10_other : TaggedAllocationDescriptor := ⟨7, 8, [3, 3, 3, 3], 30⟩

/-- Witness state for the removal-scan claim. -/
def c10_state : AllocState :=
  ⟨3, 64, c10_dupA :: c10_dupB :: c10_other :: List.replicate 61 emptyDescriptor⟩

/-- Expected state after freeing address 5 from c10_state: only the
lowest-index matching slot is cleared. -/
def c10_res : AllocState :=
  ⟨2, 64, emptyDescriptor :: c10_dupB :: c10_other :: List.replicate 61 emptyDescriptor⟩

/-- Witness allocation for the count-invariant claim. -/
def c5_a1 : TaggedAllocationDescriptor := ⟨1, 4, [65, 65, 65, 65], 0⟩

/-- Second witness allocation for the count-invariant claim. -/
def c5_a2 : TaggedAllocationDescriptor := ⟨2, 4, [65, 65, 65, 66], 0⟩

/-- Witness operation sequence for the count-invariant claim: two allocations
followed by a free of the first address. -/
def c5_ops : List AllocOp :=
  [AllocOp.alloc c5_a1, AllocOp.alloc c5_a2, AllocOp.free 1]

/-- Witness initial buffer contents for the count-invariant claim. -/
def c5_t0 : List TaggedAllocationDescriptor := List.replicate 64 emptyDescriptor

/-- Witness final state for the count-invariant claim. -/
def c5_end : AllocState :=
  ⟨1, 64, emptyDescriptor :: c5_a2 :: List.replicate 62 emptyDescriptor⟩

/-- C1: the specification says that removing an allocation shrinks the table by
one shrink step as soon as the live count leaves more than a shrink-step of
free slots and the minimum size is respected, and in particular that a 96-entry
table shrinks once the live count drops below 96 - 64 = 32. In the code the
shrink guard additionally requires the live count itself to EXCEED the minimum
table size (line 493 compares AllocationCount against
TAGGED_ALLOC_MIN_TABLE_SIZE), which is unsatisfiable together with the
free-slot condition at size 96: freeing one of 21 live records leaves the claim
threshold crossed (20 + 64 smaller than 96, and 96 - 64 at least the minimum),
yet the table stays at 96 entries. -/
theorem c1_remove_at_96_does_not_shrink :
    RemoveAllocation 5 c1_state =
      some ⟨20, 96, emptyDescriptor :: List.replicate 20 c1_other ++
        List.replicate 75 emptyDescriptor⟩ ∧
    20 + TAGGED_ALLOC_TABLE_SHRINK_STEP < 96 ∧
    TAGGED_ALLOC_MIN_TABLE_SIZE ≤ 96 - TAGGED_ALLOC_TABLE_SHRINK_STEP := by
  decide

/-- C2: the specification says inserting into a full table triggers exactly one
growth step after which the insertion succeeds. In the code the growth request
of 64 + 32 = 96 entries hits the inverted minimum-size assert of
ResizeAllocationTable (line 428 requires the new entry count to be BELOW the
minimum), so inserting into a full 64-entry table aborts the process instead of
growing. -/
theorem c2_insert_into_full_table_aborts :
    InsertAllocation c2_desc c2_full = none := by
  decide

/-- C3: the specification says the resize precondition assert fires exactly when
the requested size is below the configured minimum. The assert on line 428 is
written the other way round: a request of 96 entries (well above the minimum
of 32) aborts, while a request of 16 entries (below the minimum) passes the
assert and performs the resize; the successful sub-minimum resize also exposes
the line 442 slip of storing the byte count 16 * 16 = 256 in the entries-valued
AllocationTableSize variable. -/
theorem c3_min_size_assert_is_inverted :
    ResizeAllocationTable 96 c3_state = none ∧
    ResizeAllocationTable 16 c3_state =
      some ⟨0, 256, List.replicate 16 emptyDescriptor⟩ := by
  decide

/-- C4: the specification says a defragmentation pass leaves the live records
exactly in the slot range below the live count and every later slot empty. The
fragmentation scan walks its entry pointer from the table BASE while its index
counter starts at the caller-provided start (lines 376-378), so from the second
loop iteration on the scan looks at shifted slots: on the five-entry table
valid, empty, empty, valid, valid the pass stops after one move, leaving three
live records at slots 0, 1 and 4, with slot 4 occupied although only slots 0-2
should be. -/
theorem c4_defrag_can_leave_table_fragmented :
    DefragAllocationTable 5 c4_table =
      some [c4_r1, c4_r4, emptyDescriptor, emptyDescriptor, c4_r5] ∧
    numValid c4_table = 3 ∧
    TAGGED_ALLOC_IS_VALID
      ([c4_r1, c4_r4, emptyDescriptor, emptyDescriptor,
        c4_r5].getD 4 emptyDescriptor) = true := by
  decide

/-- C7: the specification says a resize to the current size is a no-op. In the
code the inverted minimum-size assert on line 428 fires first: requesting the
current size 64 aborts the process. The no-op branch (line 432) is only
reachable for sizes below the configured minimum, where a resize to the current
size is indeed the identity. -/
theorem c7_resize_to_current_size_aborts :
    ResizeAllocationTable c7_state.AllocationTableSize c7_state = none ∧
    ResizeAllocationTable 16 c7_small = some c7_small := by
  decide

/-- C9: the specification says Dump emits one line per live record and only for
live records. PrintStats sizes its loop with the BYTE size of the table
(line 273) but uses it as an ENTRY index bound (line 289), so it scans 16 times
past the snapshot copy: on a one-entry table with no live record, a
descriptor-shaped piece of heap residue located after the copy is printed as if
it were a live record. -/
theorem c9_print_emits_phantom_line :
    numValid c9_state.AllocationTable = 0 ∧
    PrintStats c9_state c9_heap = [⟨[0, 0, 0, 0], 123, 0, 3735928559⟩] := by
  decide

theorem length_clearFirstMatch (p : Nat) (t : List TaggedAllocationDescriptor) :
    (clearFirstMatch p t).length = t.length := by
  induction t with
  | nil => rfl
  | cons d rest ih =>
    simp only [clearFirstMatch]
    split
    · simp
    · simp [ih]

theorem clearFirstMatch_eq_self (p : Nat) (t : List TaggedAllocationDescriptor)
    (h : ∀ d ∈ t, ¬(TAGGED_ALLOC_IS_VALID d = true ∧ d.Object = p)) :
    clearFirstMatch p t = t := by
  induction t with
  | nil => rfl
  | cons d rest ih =>
    have hd := h d (List.mem_cons_self d rest)
    have hcond : ¬((TAGGED_ALLOC_IS_VALID d && d.Object == p) = true) := by
      simp only [Bool.and_eq_true, beq_iff_eq]
      exact hd
    simp only [clearFirstMatch, if_neg hcond]
    rw [ih (fun x hx => h x (List.mem_cons_of_mem d hx))]

theorem numValid_cons (d : TaggedAllocationDescriptor)
    (t : List TaggedAllocationDescriptor) :
    numValid (d :: t) =
      (if TAGGED_ALLOC_IS_VALID d then 1 else 0) + numValid t := by
  simp only [numValid, validRecords, List.filter_cons]
  split
  · simp [Nat.add_comm]
  · simp

theorem emptyDescriptor_invalid : TAGGED_ALLOC_IS_VALID emptyDescriptor = false := by
  decide

theorem numValid_clearFirstMatch_le (p : Nat)
    (t : List TaggedAllocationDescriptor) :
    numValid (clearFirstMatch p t) ≤ numValid t := by
  induction t with
  | nil => exact Nat.le_refl _
  | cons d rest ih =>
    simp only [clearFirstMatch]
    split
    · simp [numValid_cons, emptyDescriptor_invalid]
    · simp only [numValid_cons]
      omega

theorem numValid_le_clearFirstMatch_add_one (p : Nat)
    (t : List TaggedAllocationDescriptor) :
    numValid t ≤ numValid (clearFirstMatch p t) + 1 := by
  induction t with
  | nil => exact Nat.le_succ _
  | cons d rest ih =>
    simp only [clearFirstMatch]
    split
    · rename_i hcond
      have hv : TAGGED_ALLOC_IS_VALID d = true :=
        ((Bool.and_eq_true _ _).mp hcond).1
      simp [numValid_cons, emptyDescriptor_invalid, hv]
      omega
    · simp only [numValid_cons]
      omega

theorem numValid_le_length (t : List TaggedAllocationDescriptor) :
    numValid t ≤ t.length :=
  List.length_filter_le _ t

theorem numValid_set_of_firstEmpty (t : List TaggedAllocationDescriptor)
    (i : Nat) (d : TaggedAllocationDescriptor)
    (h : GetFirstEmptySlot t = some i) (hd : TAGGED_ALLOC_IS_VALID d = true) :
    numValid (t.set i d) = numValid t + 1 := by
  induction t generalizing i with
  | nil => cases h
  | cons x rest ih =>
    simp only [GetFirstEmptySlot] at h
    by_cases hv : TAGGED_ALLOC_IS_VALID x
    · rw [if_pos hv] at h
      cases hrest : GetFirstEmptySlot rest with
      | none => rw [hrest] at h; cases h
      | some j =>
        rw [hrest] at h
        simp only [Option.map_some'] at h
        cases h
        rw [List.set_cons_succ, numValid_cons, numValid_cons,
          if_pos hv, ih j hrest]
        omega
    · rw [if_neg hv] at h
      cases h
      rw [List.set_cons_zero, numValid_cons, numValid_cons,
        if_pos hd, if_neg hv]
      omega

theorem insertAllocation_of_empty_slot (d : TaggedAllocationDescriptor)
    (s : AllocState) (i : Nat)
    (h : GetFirstEmptySlot s.AllocationTable = some i) :
    InsertAllocation d s =
      some ⟨(s.AllocationCount + 1) % SIZE_T_MOD, s.AllocationTableSize,
            s.AllocationTable.set i d⟩ := by
  simp only [InsertAllocation, h, Option.some_bind]

theorem insertAllocation_none_of_full (d : TaggedAllocationDescriptor)
    (s : AllocState) (h : GetFirstEmptySlot s.AllocationTable = none) :
    InsertAllocation d s = none := by
  unfold InsertAllocation
  rw [h]
  have hge : ¬(s.AllocationTableSize + TAGGED_ALLOC_TABLE_EXPAND_STEP <
      TAGGED_ALLOC_MIN_TABLE_SIZE) := by
    simp only [TAGGED_ALLOC_TABLE_EXPAND_STEP, TAGGED_ALLOC_MIN_TABLE_SIZE]
    omega
  unfold ResizeAllocationTable
  rw [if_neg hge]
  rfl

theorem removeAllocation_of_no_shrink (p : Nat) (s : AllocState)
    (hsz : s.AllocationTableSize ≤
      TAGGED_ALLOC_MIN_TABLE_SIZE + TAGGED_ALLOC_TABLE_SHRINK_STEP) :
    RemoveAllocation p s =
      some ⟨(s.AllocationCount + (SIZE_T_MOD - 1)) % SIZE_T_MOD,
            s.AllocationTableSize,
            clearFirstMatch p s.AllocationTable⟩ := by
  unfold RemoveAllocation
  rw [if_neg ?hguard]
  case hguard =>
    intro hg
    obtain ⟨h1, h2⟩ := hg
    simp only [TAGGED_ALLOC_MIN_TABLE_SIZE, TAGGED_ALLOC_TABLE_SHRINK_STEP] at *
    omega

theorem removeAllocation_some_elim (p : Nat) (s s' : AllocState)
    (h : RemoveAllocation p s = some s') :
    s' = ⟨(s.AllocationCount + (SIZE_T_MOD - 1)) % SIZE_T_MOD,
          s.AllocationTableSize,
          clearFirstMatch p s.AllocationTable⟩ := by
  simp only [RemoveAllocation] at h
  split at h
  · rename_i hg
    obtain ⟨h1, h2⟩ := hg
    exfalso
    have hnone : ¬(s.AllocationTableSize - TAGGED_ALLOC_TABLE_SHRINK_STEP <
        TAGGED_ALLOC_MIN_TABLE_SIZE) := by
      simp only [TAGGED_ALLOC_MIN_TABLE_SIZE, TAGGED_ALLOC_TABLE_SHRINK_STEP,
        SIZE_T_MOD] at h1 h2 ⊢
      omega
    rw [ResizeAllocationTable, if_neg hnone] at h
    exact Option.noConfusion h
  · exact (Option.some.inj h).symm

/-- C6: freeing an address that matches no tracked record does not abort: the
removal scan clears nothing, the 32-bit live counter is still decremented by
exactly one, and, if the counter agreed with the number of valid slots
beforehand, it disagrees with it afterwards. The table-size hypothesis covers
every size the program can actually reach (the size stays at its initial 64
entries, since every resize request of at least the minimum size aborts on the
inverted assert); with a larger table and a decremented count inside the shrink
window the call would instead abort inside ResizeAllocationTable. -/
theorem c6_free_untracked_decrements_count (s : AllocState) (p : Nat)
    (hp : ∀ d ∈ s.AllocationTable,
      ¬(TAGGED_ALLOC_IS_VALID d = true ∧ d.Object = p))
    (hc : 0 < s.AllocationCount) (hcM : s.AllocationCount < SIZE_T_MOD)
    (hsz : s.AllocationTableSize ≤
      TAGGED_ALLOC_MIN_TABLE_SIZE + TAGGED_ALLOC_TABLE_SHRINK_STEP) :
    RemoveAllocation p s =
      some ⟨s.AllocationCount - 1, s.AllocationTableSize, s.AllocationTable⟩ ∧
    (s.AllocationCount = numValid s.AllocationTable →
      GetAllocationCount
          ⟨s.AllocationCount - 1, s.AllocationTableSize, s.AllocationTable⟩ ≠
        numValid s.AllocationTable) := by
  constructor
  · rw [removeAllocation_of_no_shrink p s hsz,
      clearFirstMatch_eq_self p s.AllocationTable hp]
    have hdec : (s.AllocationCount + (SIZE_T_MOD - 1)) % SIZE_T_MOD =
        s.AllocationCount - 1 := by
      simp only [SIZE_T_MOD] at *
      omega
    rw [hdec]
  · intro hsync
    simp only [GetAllocationCount]
    omega

/-- Witness for C6 at a concrete state: one live record at address 9, counter in
sync, freeing the untracked address 7. -/
theorem c6_free_untracked_decrements_count_witness :
    ((∀ d ∈ c6_state.AllocationTable,
        ¬(TAGGED_ALLOC_IS_VALID d = true ∧ d.Object = 7)) ∧
      0 < c6_state.AllocationCount ∧ c6_state.AllocationCount < SIZE_T_MOD ∧
      c6_state.AllocationTableSize ≤
        TAGGED_ALLOC_MIN_TABLE_SIZE + TAGGED_ALLOC_TABLE_SHRINK_STEP) ∧
    (RemoveAllocation 7 c6_state =
      some ⟨c6_state.AllocationCount - 1, c6_state.AllocationTableSize,
            c6_state.AllocationTable⟩ ∧
    (c6_state.AllocationCount = numValid c6_state.AllocationTable →
      GetAllocationCount
          ⟨c6_state.AllocationCount - 1, c6_state.AllocationTableSize,
            c6_state.AllocationTable⟩ ≠
        numValid c6_state.AllocationTable)) :=
  ⟨⟨by decide, by decide, by decide, by decide⟩,
    c6_free_untracked_decrements_count c6_state 7 (by decide) (by decide)
      (by decide) (by decide)⟩

theorem clearFirstMatch_eq_set_of_firstMatch (p : Nat)
    (t : List TaggedAllocationDescriptor) (i : Nat)
    (h : firstMatchIdx p t = some i) :
    clearFirstMatch p t = t.set i emptyDescriptor := by
  induction t generalizing i with
  | nil => cases h
  | cons d rest ih =>
    simp only [firstMatchIdx] at h
    simp only [clearFirstMatch]
    by_cases hc : (TAGGED_ALLOC_IS_VALID d && d.Object == p) = true
    · rw [if_pos hc] at h
      cases h
      rw [if_pos hc, List.set_cons_zero]
    · rw [if_neg hc] at h
      cases hrest : firstMatchIdx p rest with
      | none => rw [hrest] at h; cases h
      | some j =>
        rw [hrest] at h
        simp only [Option.map_some'] at h
        cases h
        rw [if_neg hc, List.set_cons_succ, ih j hrest]

theorem clearFirstMatch_eq_self_of_no_match (p : Nat)
    (t : List TaggedAllocationDescriptor)
    (h : firstMatchIdx p t = none) :
    clearFirstMatch p t = t := by
  induction t with
  | nil => rfl
  | cons d rest ih =>
    simp only [firstMatchIdx] at h
    simp only [clearFirstMatch]
    by_cases hc : (TAGGED_ALLOC_IS_VALID d && d.Object == p) = true
    · rw [if_pos hc] at h; cases h
    · rw [if_neg hc] at h
      cases hrest : firstMatchIdx p rest with
      | some j => rw [hrest] at h; simp at h
      | none => rw [if_neg hc, ih hrest]

theorem getD_set_ne (l : List TaggedAllocationDescriptor) (i k : Nat)
    (a d : TaggedAllocationDescriptor) (h : k ≠ i) :
    (l.set i a).getD k d = l.getD k d := by
  induction l generalizing i k with
  | nil => rfl
  | cons x rest ih =>
    cases i with
    | zero =>
      cases k with
      | zero => exact absurd rfl h
      | succ k2 => rfl
    | succ i2 =>
      cases k with
      | zero => rfl
      | succ k2 =>
        rw [List.set_cons_succ]
        simp only [List.getD_cons_succ]
        exact ih i2 k2 (fun hkk => h (congrArg Nat.succ hkk))

/-- C10: the removal scan of RemoveAllocation clears at most one slot: whenever
the call returns (it always does unless its shrink branch hits the fatal resize
assert), the resulting table is the input table with the LOWEST-index slot that
is valid and holds the freed address overwritten by the empty sentinel, so any
further slots holding the same address survive, every slot other than that one
is unchanged, and with no matching slot the table is unchanged. -/
theorem c10_remove_clears_only_lowest_match (s : AllocState) (p : Nat)
    (s' : AllocState) (h : RemoveAllocation p s = some s') :
    (∀ i, firstMatchIdx p s.AllocationTable = some i →
      s'.AllocationTable = s.AllocationTable.set i emptyDescriptor ∧
      ∀ k, k ≠ i →
        s'.AllocationTable.getD k emptyDescriptor =
          s.AllocationTable.getD k emptyDescriptor) ∧
    (firstMatchIdx p s.AllocationTable = none →
      s'.AllocationTable = s.AllocationTable) := by
  have hs := removeAllocation_some_elim p s s' h
  constructor
  · intro i hi
    have he := clearFirstMatch_eq_set_of_firstMatch p s.AllocationTable i hi
    constructor
    · rw [hs]
      exact he
    · intro k hk
      rw [hs]
      show (clearFirstMatch p s.AllocationTable).getD k emptyDescriptor = _
      rw [he]
      exact getD_set_ne s.AllocationTable i k emptyDescriptor emptyDescriptor hk
  · intro hn
    rw [hs]
    exact clearFirstMatch_eq_self_of_no_match p s.AllocationTable hn

/-- Witness for C10 at a concrete state: two live records share address 5; the
free clears only the slot-0 record, leaving the slot-1 duplicate and the slot-2
record at address 7 untouched. -/
theorem c10_remove_clears_only_lowest_match_witness :
    RemoveAllocation 5 c10_state = some c10_res ∧
    ((∀ i, firstMatchIdx 5 c10_state.AllocationTable = some i →
      c10_res.AllocationTable = c10_state.AllocationTable.set i emptyDescriptor ∧
      ∀ k, k ≠ i →
        c10_res.AllocationTable.getD k emptyDescriptor =
          c10_state.AllocationTable.getD k emptyDescriptor) ∧
    (firstMatchIdx 5 c10_state.AllocationTable = none →
      c10_res.AllocationTable = c10_state.AllocationTable)) :=
  ⟨by decide, c10_remove_clears_only_lowest_match c10_state 5 c10_res (by decide)⟩

theorem sumValidSizes_cons_valid (d : TaggedAllocationDescriptor)
    (t : List TaggedAllocationDescriptor) (hv : TAGGED_ALLOC_IS_VALID d = true) :
    sumValidSizes (d :: t) = d.Size + sumValidSizes t := by
  simp [sumValidSizes, validRecords, List.filter_cons, hv]

theorem sumValidSizes_cons_invalid (d : TaggedAllocationDescriptor)
    (t : List TaggedAllocationDescriptor)
    (hv : ¬(TAGGED_ALLOC_IS_VALID d = true)) :
    sumValidSizes (d :: t) = sumValidSizes t := by
  simp [sumValidSizes, validRecords, List.filter_cons, hv]

theorem getTotalSize_foldl (t : List TaggedAllocationDescriptor) :
    ∀ a : Nat, a < SIZE_T_MOD →
    List.foldl
      (fun totalSize d =>
        if TAGGED_ALLOC_IS_VALID d then (totalSize + d.Size) % SIZE_T_MOD
        else totalSize) a t = (a + sumValidSizes t) % SIZE_T_MOD := by
  induction t with
  | nil =>
    intro a ha
    simp [sumValidSizes, validRecords, Nat.mod_eq_of_lt ha]
  | cons d rest ih =>
    intro a ha
    simp only [List.foldl_cons]
    by_cases hv : TAGGED_ALLOC_IS_VALID d = true
    · rw [if_pos hv,
        ih ((a + d.Size) % SIZE_T_MOD) (Nat.mod_lt _ (by simp [SIZE_T_MOD])),
        Nat.mod_add_mod, sumValidSizes_cons_valid d rest hv, Nat.add_assoc]
    · rw [if_neg hv, ih a ha, sumValidSizes_cons_invalid d rest hv]

/-- C8: GetTotalSize returns the sum of the Size fields of the valid records
(the 32-bit running sum cannot wrap when that sum is below 2^32, which holds for
any set of simultaneously live allocations in a 32-bit address space), it does
so regardless of which slots the records occupy (any two tables whose lists of
valid records are permutations of one another report the same total), and it
sums only record Size fields, never the table's own storage. -/
theorem c8_total_size_additivity (s : AllocState)
    (hov : sumValidSizes s.AllocationTable < SIZE_T_MOD) :
    GetTotalSize s = sumValidSizes s.AllocationTable ∧
    ∀ s2 : AllocState,
      List.Perm (validRecords s2.AllocationTable)
        (validRecords s.AllocationTable) →
      GetTotalSize s2 = GetTotalSize s := by
  have hM : (0 : Nat) < SIZE_T_MOD := by simp [SIZE_T_MOD]
  have hmain : ∀ u : AllocState,
      GetTotalSize u = sumValidSizes u.AllocationTable % SIZE_T_MOD := by
    intro u
    unfold GetTotalSize
    rw [getTotalSize_foldl u.AllocationTable 0 hM]
    simp
  constructor
  · rw [hmain s, Nat.mod_eq_of_lt hov]
  · intro s2 hperm
    rw [hmain s2, hmain s]
    have hsum : sumValidSizes s2.AllocationTable =
        sumValidSizes s.AllocationTable := by
      unfold sumValidSizes
      exact List.Perm.sum_eq (List.Perm.map _ hperm)
    rw [hsum]

/-- Witness for C8 at a concrete state: records of 16 and 32 bytes in scattered
slots sum to 48, and a second table with the same records in other slots and
the opposite order reports the same total. -/
theorem c8_total_size_additivity_witness :
    sumValidSizes c8_state.AllocationTable < SIZE_T_MOD ∧
    GetTotalSize c8_state = sumValidSizes c8_state.AllocationTable ∧
    GetTotalSize c8_state2 = GetTotalSize c8_state :=
  ⟨by decide, (c8_total_size_additivity c8_state (by decide)).1,
    (c8_total_size_additivity c8_state (by decide)).2 c8_state2 (by decide)⟩

theorem c5_aux (ops : List AllocOp) :
    ∀ (live : List Nat) (s : AllocState),
      legalSeq ops live = true →
      s.AllocationCount = live.length →
      live.length ≤ numValid s.AllocationTable →
      s.AllocationTable.length = TAGGED_ALLOC_INITIAL_TABLE_SIZE →
      s.AllocationTableSize = TAGGED_ALLOC_INITIAL_TABLE_SIZE →
      ∀ s', runOps ops s = some s' →
        s'.AllocationCount = (liveAfter ops live).length := by
  induction ops with
  | nil =>
    intro live s _ hc _ _ _ s' h
    simp only [runOps] at h
    cases h
    simpa [liveAfter] using hc
  | cons op rest ih =>
    intro live s hleg hc hlive hlen hsz s' h
    simp only [runOps] at h
    have hlen64 : live.length ≤ 64 := by
      have h1 := numValid_le_length s.AllocationTable
      simp only [TAGGED_ALLOC_INITIAL_TABLE_SIZE] at hlen
      omega
    cases op with
    | alloc d =>
      simp only [applyOp] at h
      simp only [legalSeq, Bool.and_eq_true, bne_iff_ne, Bool.not_eq_true',
        decide_eq_false_iff_not] at hleg
      obtain ⟨⟨hd0, hfresh⟩, hlegrest⟩ := hleg
      simp only [liveAfter]
      cases hfe : GetFirstEmptySlot s.AllocationTable with
      | none =>
        rw [insertAllocation_none_of_full d s hfe] at h
        simp only [Option.none_bind] at h
        exact Option.noConfusion h
      | some i =>
        rw [insertAllocation_of_empty_slot d s i hfe] at h
        simp only [Option.some_bind] at h
        have hvd : TAGGED_ALLOC_IS_VALID d = true := by
          simp only [TAGGED_ALLOC_IS_VALID, bne_iff_ne]
          exact hd0
        have hnum := numValid_set_of_firstEmpty s.AllocationTable i d hfe hvd
        refine ih (d.Object :: live) _ hlegrest ?_ ?_ ?_ ?_ s' h
        · show (s.AllocationCount + 1) % SIZE_T_MOD = (d.Object :: live).length
          rw [hc]
          simp only [List.length_cons, SIZE_T_MOD]
          omega
        · show (d.Object :: live).length ≤ numValid (s.AllocationTable.set i d)
          rw [hnum]
          simp only [List.length_cons]
          omega
        · show (s.AllocationTable.set i d).length = TAGGED_ALLOC_INITIAL_TABLE_SIZE
          rw [List.length_set]
          exact hlen
        · exact hsz
    | free a =>
      simp only [applyOp] at h
      simp only [legalSeq, Bool.and_eq_true, decide_eq_true_eq] at hleg
      obtain ⟨hmem, hlegrest⟩ := hleg
      simp only [liveAfter]
      have hnoshrink : s.AllocationTableSize ≤
          TAGGED_ALLOC_MIN_TABLE_SIZE + TAGGED_ALLOC_TABLE_SHRINK_STEP := by
        rw [hsz]
        simp [TAGGED_ALLOC_MIN_TABLE_SIZE, TAGGED_ALLOC_TABLE_SHRINK_STEP,
          TAGGED_ALLOC_INITIAL_TABLE_SIZE]
      rw [removeAllocation_of_no_shrink a s hnoshrink] at h
      simp only [Option.some_bind] at h
      have hpos : 0 < live.length := List.length_pos_of_mem hmem
      have herase : (live.erase a).length = live.length - 1 :=
        List.length_erase_of_mem hmem
      refine ih (live.erase a) _ hlegrest ?_ ?_ ?_ ?_ s' h
      · show (s.AllocationCount + (SIZE_T_MOD - 1)) % SIZE_T_MOD =
          (live.erase a).length
        rw [hc, herase]
        simp only [SIZE_T_MOD]
        omega
      · show (live.erase a).length ≤
          numValid (clearFirstMatch a s.AllocationTable)
        rw [herase]
        have hge := numValid_le_clearFirstMatch_add_one a s.AllocationTable
        omega
      · show (clearFirstMatch a s.AllocationTable).length =
          TAGGED_ALLOC_INITIAL_TABLE_SIZE
        rw [length_clearFirstMatch]
        exact hlen
      · exact hsz

/-- C5: for every legal sequence of public operations (each allocation records a
fresh non-null address, each free targets an address previously returned and
not yet freed) that runs to completion from a freshly initialised state (whose
malloc-provided buffer holds arbitrary residue), GetAllocationCount returns
exactly the number of Allocate calls not yet matched by a Free on the same
address. -/
theorem c5_count_invariant (ops : List AllocOp)
    (t0 : List TaggedAllocationDescriptor)
    (h0 : t0.length = TAGGED_ALLOC_INITIAL_TABLE_SIZE)
    (hleg : legalSeq ops [] = true) (s' : AllocState)
    (hrun : runOps ops (initState t0) = some s') :
    GetAllocationCount s' = (liveAfter ops []).length :=
  c5_aux ops [] (initState t0) hleg rfl (Nat.zero_le _) h0 rfl s' hrun

/-- Witness for C5 at a concrete run: two allocations at addresses 1 and 2
followed by a free of address 1 leave a count of one, matching the single
unmatched allocation. -/
theorem c5_count_invariant_witness :
    c5_t0.length = TAGGED_ALLOC_INITIAL_TABLE_SIZE ∧
    legalSeq c5_ops [] = true ∧
    runOps c5_ops (initState c5_t0) = some c5_end ∧
    GetAllocationCount c5_end = (liveAfter c5_ops []).length :=
  ⟨by decide, by decide, by decide,
    c5_count_invariant c5_ops c5_t0 (by decide) (by decide) c5_end (by decide)⟩

end TaggedAllocModel
